import Mathlib

set_option maxRecDepth 4000

/-!
Verification development for the replay driver (`src/replay.js`) of
typescript-server-replay.

The driver reads a newline-delimited JSON trace file, turns each line into a
request record (after placeholder substitution and file-content augmentation),
sends the records in order to a server process, and reacts to responses and
process-lifecycle signals with a fixed exit-code taxonomy.

Shallow embedding conventions:
* JavaScript values produced by `JSON.parse` are modelled by `JValue`.
* `JSON.parse` is modelled by `jsonParse`, an executable parser for the JSON
  subset that trace files use (null/true/false, integer numbers, strings with
  the common escapes, arrays, objects; no floats and no unicode escapes —
  inputs in the theorems below stay inside this subset).
* External collaborators (the filesystem, the server process channel) are
  oracles passed in as functions.
* A thrown JavaScript exception is modelled as `Except.error ()`.
-/

namespace Replay

/-- JavaScript values as produced by `JSON.parse` (undefined is represented
by `Option.none` at use sites, never as a `JValue`). -/
inductive JValue where
  | null
  | bool (b : Bool)
  | num (n : Int)
  | str (s : String)
  | arr (elems : List JValue)
  | obj (fields : List (String × JValue))

/-- Field lookup on an object's field list (fields are unique by
construction: the parser and `setFieldList` both deduplicate keys). -/
def lookupField : List (String × JValue) → String → Option JValue
  | [], _ => none
  | (k, v) :: rest, key => if k = key then some v else lookupField rest key

/-- Property assignment on a field list: overwrite in place if the key
exists (as JavaScript does, keeping insertion order), else append. -/
def setFieldList : List (String × JValue) → String → JValue → List (String × JValue)
  | [], k, v => [(k, v)]
  | (k', v') :: rest, k, v =>
    if k' = k then (k, v) :: rest else (k', v') :: setFieldList rest k v

/-- JavaScript property assignment `o.k = v`. On a non-object the sloppy-mode
assignment is a silent no-op. -/
def setField : JValue → String → JValue → JValue
  | JValue.obj fields, k, v => JValue.obj (setFieldList fields k v)
  | other, _, _ => other

/-- JavaScript property read `o.k` where `o : Option JValue` (`none` stands
for `undefined`). Reading a property of `undefined` or `null` throws a
`TypeError`; primitives simply have no such own property. -/
def getProp : Option JValue → String → Except Unit (Option JValue)
  | none, _ => Except.error ()
  | some JValue.null, _ => Except.error ()
  | some (JValue.obj fields), key => Except.ok (lookupField fields key)
  | some _, _ => Except.ok none

/-- JavaScript truthiness of a possibly-undefined value. -/
def jsTruthy : Option JValue → Bool
  | none => false
  | some JValue.null => false
  | some (JValue.bool b) => b
  | some (JValue.num n) => n != 0
  | some (JValue.str s) => s != ""
  | some (JValue.arr _) => true
  | some (JValue.obj _) => true

/-- JavaScript strict equality `v === lit` against a string literal: true
exactly for an equal string value. -/
def isStrictEqStr : Option JValue → String → Bool
  | some (JValue.str s), t => s = t
  | _, _ => false

mutual
/-- JavaScript string coercion (used when a non-string ends up where the
driver expects a string, e.g. a non-string `rootDirPlaceholder`; arrays with
null elements deviate slightly from JS, which renders them empty — no
theorem below exercises that corner). -/
def jsCoerceToString : JValue → String
  | JValue.null => "null"
  | JValue.bool true => "true"
  | JValue.bool false => "false"
  | JValue.num n => toString n
  | JValue.str s => s
  | JValue.arr xs => String.intercalate "," (jsCoerceList xs)
  | JValue.obj _ => "[object Object]"

/-- Pointwise string coercion of a list of values. -/
def jsCoerceList : List JValue → List String
  | [] => []
  | x :: xs => jsCoerceToString x :: jsCoerceList xs
end

/-- Nullish coalescing `v ?? old` landing in a string slot (the driver's
`rootDirPlaceholder`); a later `new RegExp(v)` would coerce a non-string,
so the coercion is applied here. -/
def nullishString (v : Option JValue) (old : String) : String :=
  match v with
  | none => old
  | some JValue.null => old
  | some w => jsCoerceToString w

/-- Nullish coalescing `v ?? old` keeping the JavaScript value
(the driver's `serverArgs`). -/
def nullishJValue (v : Option JValue) (old : JValue) : JValue :=
  match v with
  | none => old
  | some JValue.null => old
  | some w => w

/-- Iteration `for (const x of v)` over a possibly-undefined value: arrays
yield their elements, strings yield their characters (as strings), anything
else throws a `TypeError`. -/
def jsIterate : Option JValue → Except Unit (List JValue)
  | some (JValue.arr xs) => Except.ok xs
  | some (JValue.str s) => Except.ok (s.data.map (fun c => JValue.str (String.singleton c)))
  | _ => Except.error ()

/-! ## A JSON parser for the trace subset -/

/-- Is this character JSON whitespace? -/
def jsonWs (c : Char) : Bool :=
  c = ' ' ∨ c = '\t' ∨ c = '\n' ∨ c = '\r'

/-- Skip JSON whitespace. -/
def skipWs : List Char → List Char
  | [] => []
  | c :: rest => if jsonWs c then skipWs rest else c :: rest

/-- Decode one character escape of a JSON string literal. -/
def escChar (e : Char) : Option Char :=
  if e = '"' ∨ e = '\\' ∨ e = '/' then some e
  else if e = 'n' then some '\n'
  else if e = 't' then some '\t'
  else if e = 'r' then some '\r'
  else if e = 'b' then some (Char.ofNat 8)
  else if e = 'f' then some (Char.ofNat 12)
  else none

/-- Parse the body of a JSON string literal (after the opening quote),
returning the content and the input after the closing quote. -/
def parseStrBody : List Char → Option (List Char × List Char)
  | [] => none
  | '"' :: rest => some ([], rest)
  | '\\' :: rest =>
    match rest with
    | [] => none
    | e :: rest' =>
      match escChar e with
      | none => none
      | some c =>
        match parseStrBody rest' with
        | none => none
        | some (content, after) => some (c :: content, after)
  | c :: rest =>
    match parseStrBody rest with
    | none => none
    | some (content, after) => some (c :: content, after)

/-- Split a leading run of decimal digits. -/
def takeDigits (input : List Char) : List Char × List Char :=
  match input with
  | [] => ([], [])
  | d :: tl =>
    if d.isDigit then
      let split := takeDigits tl
      (d :: split.1, split.2)
    else ([], d :: tl)

/-- Numeric value of a digit run, accumulator style. -/
def digitsToNat (acc : Nat) : List Char → Nat
  | [] => acc
  | d :: ds => digitsToNat (acc * 10 + (d.toNat - 48)) ds

/-- Parse an integer JSON number (optional leading minus). -/
def parseNum : List Char → Option (Int × List Char)
  | '-' :: rest =>
    match takeDigits rest with
    | ([], _) => none
    | (ds, rest') => some (-(digitsToNat 0 ds : Int), rest')
  | s =>
    match takeDigits s with
    | ([], _) => none
    | (ds, rest') => some ((digitsToNat 0 ds : Int), rest')

/-- Fold duplicate object keys the way `JSON.parse` does: the last
occurrence wins, at the first occurrence's position. -/
def dedupFields (pairs : List (String × JValue)) : List (String × JValue) :=
  pairs.foldl (fun acc kv => setFieldList acc kv.1 kv.2) []

mutual
/-- Parse one JSON value (fuelled; the fuel only bounds nesting and is set
generously from the input length by `jsonParse`). -/
def parseVal : Nat → List Char → Option (JValue × List Char)
  | 0, _ => none
  | fuel + 1, s =>
    match skipWs s with
    | 'n' :: 'u' :: 'l' :: 'l' :: rest => some (JValue.null, rest)
    | 't' :: 'r' :: 'u' :: 'e' :: rest => some (JValue.bool true, rest)
    | 'f' :: 'a' :: 'l' :: 's' :: 'e' :: rest => some (JValue.bool false, rest)
    | '"' :: rest =>
      match parseStrBody rest with
      | none => none
      | some (content, after) => some (JValue.str (String.mk content), after)
    | '[' :: rest =>
      match skipWs rest with
      | ']' :: after => some (JValue.arr [], after)
      | s' =>
        match parseArrItems fuel s' with
        | none => none
        | some (elems, after) => some (JValue.arr elems, after)
    | '\x7b' :: rest =>
      match skipWs rest with
      | '\x7d' :: after => some (JValue.obj [], after)
      | s' =>
        match parseObjItems fuel s' with
        | none => none
        | some (pairs, after) => some (JValue.obj (dedupFields pairs), after)
    | s' =>
      match parseNum s' with
      | none => none
      | some (n, rest) => some (JValue.num n, rest)

/-- Parse the comma-separated items of a non-empty array, including the
closing bracket. -/
def parseArrItems : Nat → List Char → Option (List JValue × List Char)
  | 0, _ => none
  | fuel + 1, s =>
    match parseVal fuel s with
    | none => none
    | some (v, rest) =>
      match skipWs rest with
      | ',' :: rest' =>
        match parseArrItems fuel rest' with
        | none => none
        | some (vs, after) => some (v :: vs, after)
      | ']' :: after => some ([v], after)
      | _ => none

/-- Parse the comma-separated members of a non-empty object, including the
closing brace. -/
def parseObjItems : Nat → List Char → Option (List (String × JValue) × List Char)
  | 0, _ => none
  | fuel + 1, s =>
    match skipWs s with
    | '"' :: rest =>
      match parseStrBody rest with
      | none => none
      | some (key, rest') =>
        match skipWs rest' with
        | ':' :: rest'' =>
          match parseVal fuel rest'' with
          | none => none
          | some (v, rest''') =>
            match skipWs rest''' with
            | ',' :: more =>
              match parseObjItems fuel more with
              | none => none
              | some (pairs, after) => some ((String.mk key, v) :: pairs, after)
            | '\x7d' :: after => some ([(String.mk key, v)], after)
            | _ => none
        | _ => none
    | _ => none
end

/-- Model of `JSON.parse`: parse one value, require only whitespace after it.
`none` models a thrown `SyntaxError`. -/
def jsonParse (s : String) : Option JValue :=
  match parseVal (s.length + 2) s.data with
  | none => none
  | some (v, rest) => if skipWs rest = [] then some v else none

/-! ## The placeholder substitution

`src/replay.js` line 101 substitutes the placeholder with
`line.replace(new RegExp(rootDirPlaceholder, "g"), testDir)` — the token is
compiled as a regular-expression *pattern*, not escaped as a literal, and
the replacement string is interpreted by `String.prototype.replace`'s
substitution step (`GetSubstitution`): `$$`, `$&`, `$` + backquote and
`$` + quote carry special meaning there.  The engine below models JavaScript
regex matching for patterns whose characters are either ordinary characters
or the `.` metacharacter (any character); patterns using other
metacharacters are outside the modelled subset and are not instantiated by
any theorem in this file.  The modelled patterns contain no capture groups,
so `$n` and `$<name>` in the replacement are literal text, exactly as in
JavaScript for a group-free regex. -/

/-- One compiled pattern character: a literal, or the `.` wildcard. -/
inductive PChar where
  | lit (c : Char)
  | dot

/-- Does a pattern character match an input character? -/
def pcharMatches : PChar → Char → Bool
  | PChar.lit c, d => c = d
  | PChar.dot, _ => true

/-- Compile a pattern string: `.` becomes the wildcard, everything else a
literal (sufficient for the modelled pattern subset). -/
def compilePat (pat : String) : List PChar :=
  pat.data.map (fun c => if c = '.' then PChar.dot else PChar.lit c)

/-- Match a compiled pattern against a prefix of the input, returning the
rest of the input after the match. -/
def pmatches : List PChar → List Char → Option (List Char)
  | [], s => some s
  | _ :: _, [] => none
  | p :: ps, c :: cs => if pcharMatches p c then pmatches ps cs else none

/-- Match a literal string against a prefix of the input, returning the rest
of the input after the match. -/
def litMatches : List Char → List Char → Option (List Char)
  | [], s => some s
  | _ :: _, [] => none
  | p :: ps, c :: cs => if p = c then litMatches ps cs else none

/-- `GetSubstitution` for a group-free regex: expand the replacement string
at one match, where `matched` is the matched substring, `before` the part of
the original input preceding the match and `after` the part following it.
`$$` yields `$`; `$&` the match; `$` + backquote (`\x60`) the preceding
part; `$` + quote (`\x27`) the following part; any other `$` (including
`$n` and `$<`, since the modelled patterns have no capture groups) is
literal text. -/
def expandRep (matched before after : List Char) : List Char → List Char
  | [] => []
  | c :: tl =>
    if c = '$' then
      match tl with
      | [] => [c]
      | d :: tl' =>
        if d = '$' then '$' :: expandRep matched before after tl'
        else if d = '&' then matched ++ expandRep matched before after tl'
        else if d = '\x60' then before ++ expandRep matched before after tl'
        else if d = '\x27' then after ++ expandRep matched before after tl'
        else c :: d :: expandRep matched before after tl'
    else c :: expandRep matched before after tl

/-- The matched prefix of `s` for a match that leaves `rest`. -/
def matchedPart (s rest : List Char) : List Char :=
  s.take (s.length - rest.length)

/-- Global leftmost replacement scan, generic in the prefix matcher `m` and
in the emission `emit matched before after` produced at each match.  Mirrors
`String.prototype.replace` with a `g` regex: at each position try the
matcher; on a match emit and skip the matched chunk (an empty match emits
and advances one character, as JavaScript does); otherwise keep the
character and advance.  `pre` accumulates the original input already
consumed, so `emit` can see what precedes the match.  The fuel is set to the
input length by the callers, which the scan never exhausts. -/
def replaceScan (m : List Char → Option (List Char))
    (emit : List Char → List Char → List Char → List Char) :
    Nat → List Char → List Char → List Char
  | _, pre, [] =>
    match m [] with
    | some _ => emit [] pre []
    | none => []
  | 0, _, s => s
  | fuel + 1, pre, c :: cs =>
    match m (c :: cs) with
    | some rest =>
      if rest.length = (c :: cs).length then
        emit [] pre (c :: cs) ++ c :: replaceScan m emit fuel (pre ++ [c]) cs
      else
        emit (matchedPart (c :: cs) rest) pre rest ++
          replaceScan m emit fuel (pre ++ matchedPart (c :: cs) rest) rest
    | none => c :: replaceScan m emit fuel (pre ++ [c]) cs

/-- Model of `line.replace(new RegExp(pat, "g"), rep)` for the modelled
pattern subset, including the replacement-string substitution
(`GetSubstitution`) that `String.prototype.replace` applies to `rep`. -/
def regexReplaceGlobal (pat rep s : String) : String :=
  String.mk (replaceScan (pmatches (compilePat pat))
    (fun matched before after => expandRep matched before after rep.data)
    s.data.length [] s.data)

/-- Modelled from the spec: "substitute every literal occurrence of the
placeholder token with the canonicalized project-root path (global
substitution, not a single replace)" — a global leftmost replacement of the
token treated as a literal string, the replacement inserted verbatim.  This
is the spec-side definition that the source-side `regexReplaceGlobal` is
compared against. -/
def literalReplaceAll (pat rep s : String) : String :=
  String.mk (replaceScan (litMatches pat.data)
    (fun _ _ _ => rep.data) s.data.length [] s.data)

/-- The substitution the driver applies to every non-header trace line
before `JSON.parse` (`src/replay.js` line 101). -/
def substituteLine (placeholder testDir line : String) : String :=
  regexReplaceGlobal placeholder testDir line

/-- Characters that are ordinary (non-metacharacter) in a JavaScript regular
expression; a pattern built only from these behaves as a literal string. -/
def regexSafeChar (c : Char) : Bool :=
  c.isAlphanum || c = '@' || c = '_' || c = '/' || c = '-' || c = ' '

/-! ## The Request Stream Parser (`rl.on('line')` handler, lines 85–135)

State of the streaming parse.  `badLogs` records the raw text of lines
reported with `Bad input "..."` (line 122); `requests` accumulates the
prepared request records in order. -/

structure ParserState where
  rootDirPlaceholder : String
  serverArgs : JValue
  firstLine : Bool
  sawExit : Bool
  requests : List JValue
  badLogs : List String

/-- Default placeholder token (line 75). -/
def defaultPlaceholder : String := "@PROJECT_ROOT@"

/-- Default server arguments (lines 76–78). -/
def defaultServerArgs : JValue :=
  JValue.arr [JValue.str "--disableAutomaticTypingAcquisition"]

/-- Parser state before any line is processed (lines 75–82). -/
def initState : ParserState :=
  ⟨defaultPlaceholder, defaultServerArgs, true, false, [], []⟩

/-- Augment one `openFiles` entry (body of the loops at lines 103–106 and
109–112): read `entry[fileKey]` from the filesystem oracle and store the
content under `contentKey`.  A missing/undefined/non-string path or a failing
read is a thrown error.  (`readFileSync` on a number would read from a file
descriptor; that corner is modelled as a throw and never instantiated.) -/
def augmentEntry (fsOracle : String → Option String) (fileKey contentKey : String)
    (entry : JValue) : Except Unit JValue :=
  match getProp (some entry) fileKey with
  | Except.error _ => Except.error ()
  | Except.ok fOpt =>
    match fOpt with
    | some (JValue.str p) =>
      match fsOracle p with
      | some content => Except.ok (setField entry contentKey (JValue.str content))
      | none => Except.error ()
    | _ => Except.error ()

/-- Augment every entry of a list, failing on the first failing entry (the
loop throws out of the handler on the first bad entry). -/
def mapAugment (fsOracle : String → Option String) (fileKey contentKey : String) :
    List JValue → Except Unit (List JValue)
  | [] => Except.ok []
  | e :: rest =>
    match augmentEntry fsOracle fileKey contentKey e with
    | Except.error _ => Except.error ()
    | Except.ok e' =>
      match mapAugment fsOracle fileKey contentKey rest with
      | Except.error _ => Except.error ()
      | Except.ok rest' => Except.ok (e' :: rest')

/-- The augmentation `for (const openFile of request.arguments.openFiles)`
(lines 102–113), functionally: the in-place entry mutations become a rebuilt
request.  Iterating a non-empty string yields character entries whose
`fileKey` property is undefined, so the first entry throws; an empty string
iterates zero times and leaves the request unchanged. -/
def augmentRequest (fsOracle : String → Option String) (fileKey contentKey : String)
    (request : JValue) : Except Unit JValue :=
  match getProp (some request) "arguments" with
  | Except.error _ => Except.error ()
  | Except.ok argsOpt =>
    match getProp argsOpt "openFiles" with
    | Except.error _ => Except.error ()
    | Except.ok ofOpt =>
      match ofOpt with
      | some (JValue.arr entries) =>
        match mapAugment fsOracle fileKey contentKey entries with
        | Except.error _ => Except.error ()
        | Except.ok entries' =>
          match argsOpt with
          | some args =>
            Except.ok (setField request "arguments"
              (setField args "openFiles" (JValue.arr entries')))
          | none => Except.error ()
      | some (JValue.str s) => if s.data = [] then Except.ok request else Except.error ()
      | _ => Except.error ()

/-- Prepare one request record from a non-header line (lines 101–113):
substitute the placeholder, `JSON.parse`, then augment `updateOpen` /
`applyChangedToOpenFiles` records.  The source re-reads `request.command`
before each check, which this mirrors. -/
def prepareRequest (fsOracle : String → Option String) (testDir placeholder line : String) :
    Except Unit JValue :=
  match jsonParse (substituteLine placeholder testDir line) with
  | none => Except.error ()
  | some request =>
    match getProp (some request) "command" with
    | Except.error _ => Except.error ()
    | Except.ok cv1 =>
      match (if isStrictEqStr cv1 "updateOpen"
             then augmentRequest fsOracle "file" "fileContent" request
             else Except.ok request) with
      | Except.error _ => Except.error ()
      | Except.ok request1 =>
        match getProp (some request1) "command" with
        | Except.error _ => Except.error ()
        | Except.ok cv2 =>
          match (if isStrictEqStr cv2 "applyChangedToOpenFiles"
                 then augmentRequest fsOracle "fileName" "content" request1
                 else Except.ok request1) with
          | Except.error _ => Except.error ()
          | Except.ok request2 => Except.ok request2

/-- Process a line as a request (lines 101–119): prepare the record, track
`sawExit` via `request.command === "exit"` (line 115–116), and push it unless
it is an exit record in unattended mode (lines 117–119). -/
def processRequestLine (unattended : Bool) (fsOracle : String → Option String)
    (testDir : String) (st : ParserState) (line : String) : Except Unit ParserState :=
  match prepareRequest fsOracle testDir st.rootDirPlaceholder line with
  | Except.error _ => Except.error ()
  | Except.ok request =>
    match getProp (some request) "command" with
    | Except.error _ => Except.error ()
    | Except.ok cv =>
      let isExit := isStrictEqStr cv "exit"
      Except.ok { st with
        sawExit := st.sawExit || isExit,
        requests := if !isExit || !unattended then st.requests ++ [request] else st.requests }

/-- The blank-line test `line.trim().length === 0` (line 88): a line is
blank exactly when every character is whitespace. -/
def isBlank (line : String) : Bool :=
  line.data.all (fun c => c.isWhitespace)

/-- The `try` block of the line handler (lines 86–119): skip blank lines;
on the first line, a parsed object with a falsy `command` is the header and
overrides the placeholder and server arguments (lines 92–99); every other
line is a request line.  `Except.error` is a thrown exception reaching the
`catch`. -/
def processLineCore (unattended : Bool) (fsOracle : String → Option String)
    (testDir : String) (st : ParserState) (line : String) : Except Unit ParserState :=
  if isBlank line then Except.ok st
  else if st.firstLine then
    match jsonParse line with
    | none => Except.error ()
    | some obj =>
      match getProp (some obj) "command" with
      | Except.error _ => Except.error ()
      | Except.ok cv =>
        if !(jsTruthy cv) then
          match getProp (some obj) "rootDirPlaceholder" with
          | Except.error _ => Except.error ()
          | Except.ok rdp =>
            match getProp (some obj) "serverArgs" with
            | Except.error _ => Except.error ()
            | Except.ok sa =>
              Except.ok { st with
                rootDirPlaceholder := nullishString rdp st.rootDirPlaceholder,
                serverArgs := nullishJValue sa st.serverArgs }
        else processRequestLine unattended fsOracle testDir st line
  else processRequestLine unattended fsOracle testDir st line

/-- Result of the streaming parse: still running, or the process terminated
with status 2 (`process.exit(2)`, line 124). -/
inductive ParseResult where
  | running (st : ParserState)
  | fatalExit2 (st : ParserState)

/-- Exit status forced during the parse, if any. -/
def parseExitCode : ParseResult → Option Nat
  | ParseResult.running _ => none
  | ParseResult.fatalExit2 _ => some 2

/-- One full line-handler step (lines 85–130), including the `catch` (report
`Bad input "<line>"`, exit 2 when unattended, otherwise skip the line) and
the `finally` (which sets `firstLine = false` on every completed path — note
that JavaScript runs `finally` even on the blank-line early `return`; the
`process.exit(2)` path never returns, so `finally` is moot there). -/
def processLine (unattended : Bool) (fsOracle : String → Option String)
    (testDir : String) (st : ParserState) (line : String) : ParseResult :=
  match processLineCore unattended fsOracle testDir st line with
  | Except.ok st' => ParseResult.running { st' with firstLine := false }
  | Except.error _ =>
    if unattended then ParseResult.fatalExit2 { st with badLogs := st.badLogs ++ [line] }
    else ParseResult.running { st with badLogs := st.badLogs ++ [line], firstLine := false }

/-- Process a list of trace lines in order, stopping if the process exited. -/
def processLines (unattended : Bool) (fsOracle : String → Option String)
    (testDir : String) : ParserState → List String → ParseResult
  | st, [] => ParseResult.running st
  | st, line :: rest =>
    match processLine unattended fsOracle testDir st line with
    | ParseResult.running st' => processLines unattended fsOracle testDir st' rest
    | ParseResult.fatalExit2 st' => ParseResult.fatalExit2 st'

/-- Stream a whole trace from the initial state. -/
def processTrace (unattended : Bool) (fsOracle : String → Option String)
    (testDir : String) (lines : List String) : ParseResult :=
  processLines unattended fsOracle testDir initState lines

/-- The synthesized exit record `{ "seq": 999999, "command": "exit" }`
(line 134). -/
def exitSentinel : JValue :=
  JValue.obj [("seq", JValue.num 999999), ("command", JValue.str "exit")]

/-- The complete Request Stream Parser (lines 85–135): stream the trace,
then append the exit sentinel when no exit command was seen and the mode is
interactive (lines 133–135). -/
def parseRequests (unattended : Bool) (fsOracle : String → Option String)
    (testDir : String) (lines : List String) : ParseResult :=
  match processTrace unattended fsOracle testDir lines with
  | ParseResult.fatalExit2 st => ParseResult.fatalExit2 st
  | ParseResult.running st =>
    ParseResult.running
      (if !st.sawExit && !unattended
       then { st with requests := st.requests ++ [exitSentinel] }
       else st)

/-! ## The Replay Loop / Mode Controller (lines 158–221)

The Process Channel is external: responses are an oracle indexed by send
position (one request in flight at a time), and the outcomes of
`server.exitOrKill(5000)` calls are oracle booleans (`none` modelling a
rejected promise). -/

/-- The driver inspects a response only through its `success` flag and
`message` field (spec §3, ResponseRecord); `message := none` is an absent
field.  A missing response (`server.message` resolving to undefined) is
`Option.none` at the oracle. -/
structure Resp where
  success : Bool
  message : Option String

/-- The sentinel message that is an expected soft-miss (line 194). -/
def noContentMsg : String := "No content available."

/-- The condition of line 194:
`response && !response.success && response.message !== "No content available."`. -/
def failTrigger : Option Resp → Bool
  | none => false
  | some r => !r.success && !(r.message == some noContentMsg)

/-- Mutable state owned by the main loop: the `exitRequested` flag
(line 158), the requests sent so far, and the interactive failure reports
(lines 206–207). -/
structure LoopState where
  exitRequested : Bool
  sent : List JValue
  failReports : List (JValue × Resp)

/-- How the `for` loop of lines 190–209 ends: all records sent, or the
unattended unsuccessful-response path (print the response, best-effort
shutdown, `process.exit(5)`). -/
inductive LoopOutcome where
  | completed (s : LoopState)
  | fatalResponse (s : LoopState) (printed : Resp)

/-- The main loop (lines 190–209).  Per record: update `exitRequested` from
`request.command === "exit"` (line 191), send the record and await its
response (line 193; the interactive echo of line 192 is observability only
and not tracked), then the unsuccessful-response check (lines 194–208).
`Except.error` is an exception escaping the loop to `main().catch`
(driver exit 1); the `exitOrKillServer` attempt on the fatal path sets
`exitRequested` and its own outcome is swallowed (lines 197–202). -/
def runLoop (unattended : Bool) (resps : Nat → Option Resp) :
    List JValue → Nat → LoopState → Except Unit LoopOutcome
  | [], _, s => Except.ok (LoopOutcome.completed s)
  | req :: rest, idx, s =>
    match getProp (some req) "command" with
    | Except.error _ => Except.error ()
    | Except.ok cv =>
      let s1 : LoopState :=
        { s with exitRequested := s.exitRequested || isStrictEqStr cv "exit",
                 sent := s.sent ++ [req] }
      match resps idx with
      | some r =>
        if failTrigger (some r) then
          if unattended then
            Except.ok (LoopOutcome.fatalResponse { s1 with exitRequested := true } r)
          else
            runLoop unattended resps rest (idx + 1)
              { s1 with failReports := s1.failReports ++ [(req, r)] }
        else runLoop unattended resps rest (idx + 1) s1
      | none => runLoop unattended resps rest (idx + 1) s1

/-- The grace period of `exitOrKillServer` (line 220). -/
def exitOrKillTimeoutMs : Nat := 5000

/-- A completed `exitOrKillServer` call: the timeout it used, and the
channel's answer (`some true` clean exit, `some false` forced kill,
`none` the call itself threw). -/
structure ShutdownAttempt where
  timeoutMs : Nat
  result : Option Bool

/-- Observable outcome of a whole `main()` run past the parse: the driver's
exit status (0 = resolved normally), what was sent, the interactive failure
reports, the response printed on the unattended fatal path (line 196), the
shutdown attempt if one was made, and the final `exitRequested` flag. -/
structure MainResult where
  exitCode : Nat
  sent : List JValue
  failReports : List (JValue × Resp)
  printedResponse : Option Resp
  shutdown : Option ShutdownAttempt
  exitRequested : Bool

/-- The tail of `main()` (lines 190–221): run the loop; on the unattended
fatal-response path exit 5 (the shutdown attempt's outcome
`fatalShutdownResult` is swallowed); otherwise, when unattended, run the
exit-or-kill protocol — `exitOrKillServer` sets `exitRequested` then asks
the channel with the 5000 grace period — exiting 6 if the channel had to be
killed and resolving (status 0) if it exited cleanly; a rejection there
escapes to `main().catch`.  Interactive mode just resolves. -/
def runMain (unattended : Bool) (resps : Nat → Option Resp)
    (fatalShutdownResult finalExitOrKill : Option Bool) (requests : List JValue) :
    Except Unit MainResult :=
  match runLoop unattended resps requests 0 ⟨false, [], []⟩ with
  | Except.error _ => Except.error ()
  | Except.ok (LoopOutcome.fatalResponse s r) =>
    Except.ok { exitCode := 5, sent := s.sent, failReports := s.failReports,
                printedResponse := some r,
                shutdown := some ⟨exitOrKillTimeoutMs, fatalShutdownResult⟩,
                exitRequested := s.exitRequested }
  | Except.ok (LoopOutcome.completed s) =>
    if unattended then
      match finalExitOrKill with
      | none => Except.error ()
      | some clean =>
        Except.ok { exitCode := if clean then 0 else 6, sent := s.sent,
                    failReports := s.failReports, printedResponse := none,
                    shutdown := some ⟨exitOrKillTimeoutMs, some clean⟩,
                    exitRequested := true }
    else
      Except.ok { exitCode := 0, sent := s.sent, failReports := s.failReports,
                  printedResponse := none, shutdown := none,
                  exitRequested := s.exitRequested }

/-! ## The close handler (lines 161–168) -/

/-- JavaScript truthiness of the close event's exit code (0 and null are
falsy). -/
def codeTruthy : Option Int → Bool
  | none => false
  | some c => c != 0

/-- JavaScript truthiness of the close event's signal (null and the empty
string are falsy). -/
def signalTruthy : Option String → Bool
  | none => false
  | some s => s != ""

/-- The message logged by the close handler (line 163). -/
def closeMessage (exitRequested : Bool) (code : Option Int) (signal : Option String) :
    String :=
  (if exitRequested then "Shut down" else "Exited unexpectedly") ++
    (if codeTruthy code then " with code " ++ toString ((code.getD 0))
     else if signalTruthy signal then " with signal " ++ (signal.getD "")
     else "")

/-- The `server.on("close")` handler (lines 161–168): the logged message if
any, and the forced driver exit status if any. -/
def closeHandler (unattended exitRequested : Bool) (code : Option Int)
    (signal : Option String) : Option String × Option Nat :=
  (if !unattended || !exitRequested || codeTruthy code || signalTruthy signal
     then some (closeMessage exitRequested code signal) else none,
   if unattended && !exitRequested then some 3 else none)

/-- The close handler reports an anomaly when it logs anything other than
the plain clean-shutdown message `"Shut down"` (i.e. an unexpected exit, or
a termination with a nonzero code or a signal). -/
def anomalyReported (unattended exitRequested : Bool) (code : Option Int)
    (signal : Option String) : Bool :=
  match (closeHandler unattended exitRequested code signal).1 with
  | none => false
  | some m => m != "Shut down"

/-! ## Helper notions and lemmas -/

/-- Whether a request record carries `command === "exit"` (as read by
line 115 and line 191; `false` also covers the unreachable throwing read). -/
def reqIsExit (r : JValue) : Bool :=
  match getProp (some r) "command" with
  | Except.ok cv => isStrictEqStr cv "exit"
  | Except.error _ => false

/-- A trace line paired with the request record its preparation yields and
that record's `command` property. -/
structure TraceLine where
  raw : String
  prepared : JValue
  cmd : Option JValue

/-- A well-formed request line: non-blank, its preparation (substitution,
parse, augmentation) succeeds, and the prepared record's `command` property
reads without throwing. -/
def GoodLine (fsOracle : String → Option String) (testDir placeholder : String)
    (t : TraceLine) : Prop :=
  isBlank t.raw = false ∧
  prepareRequest fsOracle testDir placeholder t.raw = Except.ok t.prepared ∧
  getProp (some t.prepared) "command" = Except.ok t.cmd

/-- A line that gets past the first-line header check as a request: its raw
text parses as JSON with a truthy `command` (lines 92–99 fall through). -/
def HeaderBypass (t : TraceLine) : Prop :=
  ∃ o cv, jsonParse t.raw = some o ∧ getProp (some o) "command" = Except.ok cv ∧
    jsTruthy cv = true

/-- The requests the parser enqueues for a run of well-formed request lines:
all of them, except that unattended mode drops exit records (lines 117–119). -/
def pushedRequests (unattended : Bool) (ts : List TraceLine) : List JValue :=
  (ts.filter (fun t => !(isStrictEqStr t.cmd "exit") || !unattended)).map TraceLine.prepared

/-- A request record "lacks an `arguments` object or an
`arguments.openFiles` sequence": reading `request.arguments` throws, or it
yields a value on which reading `.openFiles` throws (undefined/null), or
`.openFiles` reads as something `for..of` cannot iterate — neither an array
nor a string (JavaScript strings are iterable, so they count as sequences
here). -/
def lacksOpenFilesSeq (request : JValue) : Prop :=
  getProp (some request) "arguments" = Except.error () ∨
  ∃ a, getProp (some request) "arguments" = Except.ok a ∧
    (getProp a "openFiles" = Except.error () ∨
     ∃ o, getProp a "openFiles" = Except.ok o ∧
       (∀ xs, o ≠ some (JValue.arr xs)) ∧ (∀ s, o ≠ some (JValue.str s)))

theorem ne_null_of_getProp_ok {r : JValue} {k : String} {cv : Option JValue}
    (h : getProp (some r) k = Except.ok cv) : r ≠ JValue.null := by
  intro heq
  subst heq
  simp [getProp] at h

theorem exists_getProp_ok (r : JValue) (k : String) (h : r ≠ JValue.null) :
    ∃ cv, getProp (some r) k = Except.ok cv := by
  cases r with
  | null => exact absurd rfl h
  | bool b => exact ⟨none, rfl⟩
  | num n => exact ⟨none, rfl⟩
  | str s => exact ⟨none, rfl⟩
  | arr xs => exact ⟨none, rfl⟩
  | obj fields => exact ⟨lookupField fields k, rfl⟩

theorem reqIsExit_eq {r : JValue} {cv : Option JValue}
    (h : getProp (some r) "command" = Except.ok cv) :
    reqIsExit r = isStrictEqStr cv "exit" := by
  simp [reqIsExit, h]

theorem runLoop_completed (u : Bool) (resps : Nat → Option Resp)
    (reqs : List JValue) (idx : Nat) (s : LoopState)
    (hnn : ∀ r ∈ reqs, r ≠ JValue.null)
    (hb : ∀ j, j < reqs.length → failTrigger (resps (idx + j)) = false) :
    runLoop u resps reqs idx s =
      Except.ok (LoopOutcome.completed
        ⟨s.exitRequested || reqs.any reqIsExit, s.sent ++ reqs, s.failReports⟩) := by
  induction reqs generalizing idx s with
  | nil =>
    cases s
    simp [runLoop]
  | cons req rest ih =>
    have hreq : req ≠ JValue.null := hnn req (List.mem_cons_self _ _)
    obtain ⟨cv, hcv⟩ := exists_getProp_ok req "command" hreq
    have hex : reqIsExit req = isStrictEqStr cv "exit" := reqIsExit_eq hcv
    have h0 : failTrigger (resps idx) = false := by
      have h := hb 0 (by simp)
      simpa using h
    have hnn' : ∀ r ∈ rest, r ≠ JValue.null :=
      fun r hr => hnn r (List.mem_cons_of_mem _ hr)
    have hb' : ∀ j, j < rest.length → failTrigger (resps (idx + 1 + j)) = false := by
      intro j hj
      have h := hb (j + 1) (by simpa using Nat.succ_lt_succ hj)
      have harith : idx + (j + 1) = idx + 1 + j := by omega
      rwa [harith] at h
    cases hr : resps idx with
    | none =>
      simp only [runLoop, hcv, hr]
      rw [ih (idx + 1) _ hnn' hb']
      simp [hex, List.any_cons, Bool.or_assoc, List.append_assoc]
    | some r =>
      have hft : failTrigger (some r) = false := by rwa [hr] at h0
      simp only [runLoop, hcv, hr, hft, Bool.false_eq_true, if_false]
      rw [ih (idx + 1) _ hnn' hb']
      simp [hex, List.any_cons, Bool.or_assoc, List.append_assoc]

theorem runLoop_fatal (resps : Nat → Option Resp)
    (pre : List JValue) (req : JValue) (post : List JValue)
    (idx : Nat) (s : LoopState) (r : Resp)
    (hnn : ∀ x ∈ pre, x ≠ JValue.null) (hreq : req ≠ JValue.null)
    (hb : ∀ j, j < pre.length → failTrigger (resps (idx + j)) = false)
    (hresp : resps (idx + pre.length) = some r)
    (htrig : failTrigger (some r) = true) :
    runLoop true resps (pre ++ req :: post) idx s =
      Except.ok (LoopOutcome.fatalResponse
        ⟨true, s.sent ++ pre ++ [req], s.failReports⟩ r) := by
  induction pre generalizing idx s with
  | nil =>
    obtain ⟨cv, hcv⟩ := exists_getProp_ok req "command" hreq
    have hresp0 : resps idx = some r := by simpa using hresp
    simp only [List.nil_append, runLoop, hcv, hresp0, htrig, if_true]
    simp
  | cons p pre' ih =>
    have hp : p ≠ JValue.null := hnn p (List.mem_cons_self _ _)
    obtain ⟨cv, hcv⟩ := exists_getProp_ok p "command" hp
    have h0 : failTrigger (resps idx) = false := by
      have h := hb 0 (by simp)
      simpa using h
    have hnn' : ∀ x ∈ pre', x ≠ JValue.null :=
      fun x hx => hnn x (List.mem_cons_of_mem _ hx)
    have hb' : ∀ j, j < pre'.length → failTrigger (resps (idx + 1 + j)) = false := by
      intro j hj
      have h := hb (j + 1) (by simpa using Nat.succ_lt_succ hj)
      have harith : idx + (j + 1) = idx + 1 + j := by omega
      rwa [harith] at h
    have hresp' : resps (idx + 1 + pre'.length) = some r := by
      have harith : idx + (p :: pre').length = idx + 1 + pre'.length := by
        simp
        omega
      rwa [harith] at hresp
    cases hr : resps idx with
    | none =>
      simp only [List.cons_append, runLoop, hcv, hr, List.append_eq]
      rw [ih (idx + 1) _ hnn' hb' hresp']
      simp [List.append_assoc]
    | some r' =>
      have hft : failTrigger (some r') = false := by rwa [hr] at h0
      simp only [List.cons_append, runLoop, hcv, hr, hft, Bool.false_eq_true, if_false, List.append_eq]
      rw [ih (idx + 1) _ hnn' hb' hresp']
      simp [List.append_assoc]

theorem runLoop_report (resps : Nat → Option Resp)
    (pre : List JValue) (req : JValue) (post : List JValue)
    (idx : Nat) (s : LoopState) (r : Resp)
    (hnn : ∀ x ∈ pre ++ req :: post, x ≠ JValue.null)
    (hb : ∀ j, j ≠ pre.length → failTrigger (resps (idx + j)) = false)
    (hresp : resps (idx + pre.length) = some r)
    (htrig : failTrigger (some r) = true) :
    runLoop false resps (pre ++ req :: post) idx s =
      Except.ok (LoopOutcome.completed
        ⟨s.exitRequested || (pre ++ req :: post).any reqIsExit,
         s.sent ++ (pre ++ req :: post),
         s.failReports ++ [(req, r)]⟩) := by
  induction pre generalizing idx s with
  | nil =>
    have hreq : req ≠ JValue.null := hnn req (by simp)
    obtain ⟨cv, hcv⟩ := exists_getProp_ok req "command" hreq
    have hex : reqIsExit req = isStrictEqStr cv "exit" := reqIsExit_eq hcv
    have hresp0 : resps idx = some r := by simpa using hresp
    simp only [List.nil_append, runLoop, hcv, hresp0, htrig, if_true, Bool.false_eq_true,
      if_false]
    rw [runLoop_completed false resps post (idx + 1)
      ⟨(s.exitRequested || isStrictEqStr cv "exit"), s.sent ++ [req],
        s.failReports ++ [(req, r)]⟩
      (fun x hx => hnn x (by simp [hx]))
      (fun j hj => by
        have h := hb (j + 1) (by simp)
        have harith : idx + (j + 1) = idx + 1 + j := by omega
        rwa [harith] at h)]
    simp [hex, List.any_cons, Bool.or_assoc, List.append_assoc]
  | cons p pre' ih =>
    have hp : p ≠ JValue.null := hnn p (by simp)
    obtain ⟨cv, hcv⟩ := exists_getProp_ok p "command" hp
    have hex : reqIsExit p = isStrictEqStr cv "exit" := reqIsExit_eq hcv
    have h0 : failTrigger (resps idx) = false := by
      have h := hb 0 (by simp)
      simpa using h
    have hnn' : ∀ x ∈ pre' ++ req :: post, x ≠ JValue.null :=
      fun x hx => hnn x (List.mem_cons_of_mem _ hx)
    have hb' : ∀ j, j ≠ pre'.length → failTrigger (resps (idx + 1 + j)) = false := by
      intro j hj
      have h := hb (j + 1) (by simp; omega)
      have harith : idx + (j + 1) = idx + 1 + j := by omega
      rwa [harith] at h
    have hresp' : resps (idx + 1 + pre'.length) = some r := by
      have harith : idx + (p :: pre').length = idx + 1 + pre'.length := by
        simp
        omega
      rwa [harith] at hresp
    cases hr : resps idx with
    | none =>
      simp only [List.cons_append, runLoop, hcv, hr, List.append_eq]
      rw [ih (idx + 1) _ hnn' hb' hresp']
      simp [hex, List.any_cons, Bool.or_assoc, List.append_assoc]
    | some r' =>
      have hft : failTrigger (some r') = false := by rwa [hr] at h0
      simp only [List.cons_append, runLoop, hcv, hr, hft, Bool.false_eq_true, if_false, List.append_eq]
      rw [ih (idx + 1) _ hnn' hb' hresp']
      simp [hex, List.any_cons, Bool.or_assoc, List.append_assoc]

theorem processLine_request (u : Bool) (fsOracle : String → Option String)
    (testDir : String) (st : ParserState) (t : TraceLine)
    (hg : GoodLine fsOracle testDir st.rootDirPlaceholder t)
    (hpass : st.firstLine = false ∨ HeaderBypass t) :
    processLine u fsOracle testDir st t.raw =
      ParseResult.running
        ⟨st.rootDirPlaceholder, st.serverArgs, false,
         st.sawExit || isStrictEqStr t.cmd "exit",
         (if !(isStrictEqStr t.cmd "exit") || !u
          then st.requests ++ [t.prepared] else st.requests),
         st.badLogs⟩ := by
  obtain ⟨hnb, hprep, hcmd⟩ := hg
  have hreq : processRequestLine u fsOracle testDir st t.raw =
      Except.ok { st with
        sawExit := st.sawExit || isStrictEqStr t.cmd "exit",
        requests := if !(isStrictEqStr t.cmd "exit") || !u
                    then st.requests ++ [t.prepared] else st.requests } := by
    simp only [processRequestLine, hprep, hcmd]
  have hcore : processLineCore u fsOracle testDir st t.raw =
      Except.ok { st with
        sawExit := st.sawExit || isStrictEqStr t.cmd "exit",
        requests := if !(isStrictEqStr t.cmd "exit") || !u
                    then st.requests ++ [t.prepared] else st.requests } := by
    rcases hpass with hfl | ⟨o, cv, ho, hocv, htr⟩
    · simp only [processLineCore, hnb, Bool.false_eq_true, if_false, hfl, hreq]
    · cases hfl : st.firstLine with
      | false => simp only [processLineCore, hnb, Bool.false_eq_true, if_false, hfl, hreq]
      | true =>
        simp only [processLineCore, hnb, Bool.false_eq_true, if_false, hfl, if_true,
          ho, hocv, htr, Bool.not_true, hreq]
  cases st
  simp only [processLine, hcore]

theorem processLines_good (u : Bool) (fsOracle : String → Option String)
    (testDir : String) (ts : List TraceLine) (st : ParserState)
    (hfl : st.firstLine = false)
    (hg : ∀ t ∈ ts, GoodLine fsOracle testDir st.rootDirPlaceholder t) :
    processLines u fsOracle testDir st (ts.map TraceLine.raw) =
      ParseResult.running
        ⟨st.rootDirPlaceholder, st.serverArgs, false,
         st.sawExit || ts.any (fun t => isStrictEqStr t.cmd "exit"),
         st.requests ++ pushedRequests u ts,
         st.badLogs⟩ := by
  induction ts generalizing st with
  | nil =>
    cases st with
    | mk pl sa fl se reqs logs =>
      simp only [ParserState.firstLine] at hfl
      subst hfl
      simp [processLines, pushedRequests]
  | cons t ts' ih =>
    have hgt : GoodLine fsOracle testDir st.rootDirPlaceholder t :=
      hg t (List.mem_cons_self _ _)
    have hstep := processLine_request u fsOracle testDir st t hgt (Or.inl hfl)
    simp only [List.map_cons, processLines, hstep]
    rw [ih ⟨st.rootDirPlaceholder, st.serverArgs, false,
          st.sawExit || isStrictEqStr t.cmd "exit",
          (if !(isStrictEqStr t.cmd "exit") || !u
           then st.requests ++ [t.prepared] else st.requests),
          st.badLogs⟩ rfl
        (fun x hx => hg x (List.mem_cons_of_mem _ hx))]
    cases hexu : !(isStrictEqStr t.cmd "exit") || !u with
    | true =>
      simp [hexu, pushedRequests, List.filter_cons, List.any_cons, Bool.or_assoc,
        List.append_assoc]
    | false =>
      simp [hexu, pushedRequests, List.filter_cons, List.any_cons, Bool.or_assoc]

theorem bne_true_of_length_ne {a b : String} (h : a.length ≠ b.length) :
    (a != b) = true := by
  rw [bne_iff_ne]
  intro heq
  exact h (by rw [heq])

theorem closeMessage_bne_shutdown (e : Bool) (code : Option Int) (signal : Option String)
    (h : e = false ∨ codeTruthy code = true ∨ signalTruthy signal = true) :
    (closeMessage e code signal != "Shut down") = true := by
  have h9 : ("Shut down" : String).length = 9 := rfl
  have h19 : ("Exited unexpectedly" : String).length = 19 := rfl
  have h11 : (" with code " : String).length = 11 := rfl
  have h13 : (" with signal " : String).length = 13 := rfl
  cases hc : codeTruthy code with
  | true =>
    apply bne_true_of_length_ne
    simp only [closeMessage, hc, if_true, String.length_append, h11, h9]
    cases e <;> simp [h9, h19] <;> omega
  | false =>
    cases hs : signalTruthy signal with
    | true =>
      apply bne_true_of_length_ne
      simp only [closeMessage, hc, hs, Bool.false_eq_true, if_false, if_true,
        String.length_append, h13, h9]
      cases e <;> simp [h9, h19] <;> omega
    | false =>
      rcases h with he | hcc | hss
      · subst he
        simp only [closeMessage, hc, hs, Bool.false_eq_true, if_false]
        decide
      · rw [hc] at hcc
        exact absurd hcc (by decide)
      · rw [hs] at hss
        exact absurd hss (by decide)

/-- C4: For every close signal from the Process Channel, an anomaly is
reported if and only if the termination was not requested by the driver's own
explicit shutdown (`exitRequested` false), or the process exited with a
nonzero code or a signal even though shutdown was requested; additionally, in
unattended mode an unrequested close terminates the driver with status 3 (and
only then).  "Anomaly reported" is formalized as the handler logging anything
other than the plain clean-shutdown message `"Shut down"` (in interactive
mode the handler also logs that plain message on a requested clean close,
which is not an anomaly report). -/
theorem claim_C4_close_handler (u e : Bool) (code : Option Int) (signal : Option String) :
    anomalyReported u e code signal = (!e || codeTruthy code || signalTruthy signal) ∧
    ((closeHandler u e code signal).2 = some 3 ↔ u = true ∧ e = false) := by
  constructor
  · cases e with
    | true =>
      cases hc : codeTruthy code with
      | true =>
        have hm := closeMessage_bne_shutdown true code signal (Or.inr (Or.inl hc))
        simp [anomalyReported, closeHandler, hc, hm]
      | false =>
        cases hs : signalTruthy signal with
        | true =>
          have hm := closeMessage_bne_shutdown true code signal (Or.inr (Or.inr hs))
          simp [anomalyReported, closeHandler, hc, hs, hm]
        | false =>
          have hm : closeMessage true code signal = "Shut down" := by
            simp only [closeMessage, hc, hs, Bool.false_eq_true, if_false, if_true]
            decide
          cases u <;> simp [anomalyReported, closeHandler, hc, hs, hm]
    | false =>
      have hm := closeMessage_bne_shutdown false code signal (Or.inl rfl)
      simp [anomalyReported, closeHandler, hm]
  · cases u <;> cases e <;> simp [closeHandler]

/-- C7: For every trace in which no parsed record has command `"exit"`
(`sawExit` is still false after all lines), interactive mode appends the
synthesized record `{seq: 999999, command: "exit"}` as the final element of
the emitted request sequence, while unattended mode appends no synthetic exit
record. -/
theorem claim_C7_exit_sentinel (u : Bool) (fsOracle : String → Option String)
    (testDir : String) (lines : List String) (st : ParserState)
    (hrun : processTrace u fsOracle testDir lines = ParseResult.running st)
    (hnoexit : st.sawExit = false) :
    (u = false →
      parseRequests u fsOracle testDir lines =
        ParseResult.running { st with requests := st.requests ++ [exitSentinel] } ∧
      (st.requests ++ [exitSentinel]).getLast? =
        some (JValue.obj [("seq", JValue.num 999999), ("command", JValue.str "exit")])) ∧
    (u = true → parseRequests u fsOracle testDir lines = ParseResult.running st) := by
  constructor
  · intro hu
    subst hu
    constructor
    · simp [parseRequests, hrun, hnoexit]
    · rw [List.getLast?_concat]
      rfl
  · intro hu
    subst hu
    simp [parseRequests, hrun, hnoexit]

/-- Witness for C7 at a concrete one-line trace with no exit request. -/
theorem claim_C7_exit_sentinel_witness :
    (parseRequests false (fun _ => none) "/r" ["\x7b\"seq\":1,\"command\":\"reload\"\x7d"] =
      ParseResult.running
        ⟨"@PROJECT_ROOT@", defaultServerArgs, false, false,
         [JValue.obj [("seq", JValue.num 1), ("command", JValue.str "reload")],
          exitSentinel], []⟩) ∧
    (parseRequests true (fun _ => none) "/r" ["\x7b\"seq\":1,\"command\":\"reload\"\x7d"] =
      ParseResult.running
        ⟨"@PROJECT_ROOT@", defaultServerArgs, false, false,
         [JValue.obj [("seq", JValue.num 1), ("command", JValue.str "reload")]], []⟩) := by
  constructor
  · exact (claim_C7_exit_sentinel false (fun _ => none) "/r"
      ["\x7b\"seq\":1,\"command\":\"reload\"\x7d"]
      ⟨"@PROJECT_ROOT@", defaultServerArgs, false, false,
       [JValue.obj [("seq", JValue.num 1), ("command", JValue.str "reload")]], []⟩
      rfl rfl).1 rfl |>.1
  · exact (claim_C7_exit_sentinel true (fun _ => none) "/r"
      ["\x7b\"seq\":1,\"command\":\"reload\"\x7d"]
      ⟨"@PROJECT_ROOT@", defaultServerArgs, false, false,
       [JValue.obj [("seq", JValue.num 1), ("command", JValue.str "reload")]], []⟩
      rfl rfl).2 rfl

/-- C8: For every unattended run in which the loop sends all requests
without an earlier fatal path, the driver performs the exit-or-kill protocol
with the 5000-time-unit grace period after the last request, with shutdown
marked intentional (`exitRequested` true); it exits with status 6 when the
channel had to be forcibly killed and with status 0 when the channel
confirmed a clean exit. -/
theorem claim_C8_exit_or_kill (resps : Nat → Option Resp) (fsr : Option Bool)
    (reqs : List JValue) (s : LoopState)
    (hcomp : runLoop true resps reqs 0 ⟨false, [], []⟩ =
      Except.ok (LoopOutcome.completed s)) :
    runMain true resps fsr (some false) reqs =
      Except.ok ⟨6, s.sent, s.failReports, none, some ⟨5000, some false⟩, true⟩ ∧
    runMain true resps fsr (some true) reqs =
      Except.ok ⟨0, s.sent, s.failReports, none, some ⟨5000, some true⟩, true⟩ := by
  constructor
  · simp [runMain, hcomp, exitOrKillTimeoutMs]
  · simp [runMain, hcomp, exitOrKillTimeoutMs]

/-- Witness for C8 on the empty request sequence. -/
theorem claim_C8_exit_or_kill_witness :
    runMain true (fun _ => none) none (some false) [] =
      Except.ok ⟨6, [], [], none, some ⟨5000, some false⟩, true⟩ ∧
    runMain true (fun _ => none) none (some true) [] =
      Except.ok ⟨0, [], [], none, some ⟨5000, some true⟩, true⟩ :=
  claim_C8_exit_or_kill (fun _ => none) none [] ⟨false, [], []⟩ rfl

/-- C6: For every trace line whose processing throws (JSON parse failure or
a failing augmentation file read), the offending raw line is reported
(appended to the `Bad input` log); in unattended mode the driver immediately
exits with status 2, and in interactive mode the line is skipped — no
request record is produced, only the bad-input log and the first-line flag
change — and parsing continues with the remaining lines. -/
theorem claim_C6_bad_line (u : Bool) (fsOracle : String → Option String)
    (testDir : String) (st : ParserState) (line : String) (rest : List String)
    (hbad : processLineCore u fsOracle testDir st line = Except.error ()) :
    (u = true →
      processLines u fsOracle testDir st (line :: rest) =
        ParseResult.fatalExit2 { st with badLogs := st.badLogs ++ [line] } ∧
      parseExitCode (processLines u fsOracle testDir st (line :: rest)) = some 2) ∧
    (u = false →
      processLine u fsOracle testDir st line =
        ParseResult.running { st with badLogs := st.badLogs ++ [line], firstLine := false } ∧
      processLines u fsOracle testDir st (line :: rest) =
        processLines u fsOracle testDir
          { st with badLogs := st.badLogs ++ [line], firstLine := false } rest) := by
  constructor
  · intro hu
    subst hu
    constructor
    · simp [processLines, processLine, hbad]
    · simp [processLines, processLine, hbad, parseExitCode]
  · intro hu
    subst hu
    constructor
    · simp [processLine, hbad]
    · simp [processLines, processLine, hbad]

/-- Witness for C6 at a concrete malformed line, in both modes. -/
theorem claim_C6_bad_line_witness :
    (processLines true (fun _ => none) "/r" initState ["\x7bnope", "5"] =
      ParseResult.fatalExit2 { initState with badLogs := ["\x7bnope"] }) ∧
    (processLines false (fun _ => none) "/r" initState ["\x7bnope", "5"] =
      processLines false (fun _ => none) "/r"
        { initState with badLogs := ["\x7bnope"], firstLine := false } ["5"]) := by
  constructor
  · exact ((claim_C6_bad_line true (fun _ => none) "/r" initState "\x7bnope" ["5"]
      rfl).1 rfl).1
  · exact ((claim_C6_bad_line false (fun _ => none) "/r" initState "\x7bnope" ["5"]
      rfl).2 rfl).2

/-- C3 (evaluation at the failing input): the claim asserts blank lines are
skipped with no effect on first-line detection, but the `finally` clause of
the line handler (line 128) runs on the blank-line early `return` as well and
clears `firstLine`.  First conjunct: with no preceding blank line, a JSON
object line lacking `command` is consumed as the TraceHeader (placeholder
overridden, no request produced).  Second conjunct: with one preceding blank
line the very same line is *not* consumed as a header — the defaults stay in
force and the line is enqueued as a request record instead. -/
theorem claim_C3_blank_line_first_line :
    (processTrace false (fun _ => none) "ROOT" ["\x7b\"rootDirPlaceholder\":\"XX\"\x7d"] =
      ParseResult.running ⟨"XX", defaultServerArgs, false, false, [], []⟩) ∧
    (processTrace false (fun _ => none) "ROOT" ["", "\x7b\"rootDirPlaceholder\":\"XX\"\x7d"] =
      ParseResult.running
        ⟨"@PROJECT_ROOT@", defaultServerArgs, false, false,
         [JValue.obj [("rootDirPlaceholder", JValue.str "XX")]], []⟩) := by
  constructor
  · rfl
  · rfl

/-- C5 (counterexample): the substitution is not a literal-string global
substitution, in two independent ways.  First conjunct group: with
`rootDirPlaceholder = "a.c"` the line `"xayc"` contains no literal
occurrence of the token, yet the driver's substitution rewrites it (the
token is compiled as a regular expression, whose `.` matches any
character), whereas a literal global substitution leaves it unchanged.
Second conjunct group: even with the default, metacharacter-free token, a
canonicalized project path containing `$&` is not inserted verbatim —
`String.prototype.replace` expands `$&` to the matched token — so the
result again differs from a literal textual substitution. -/
theorem claim_C5_counterexample :
    (substituteLine "a.c" "R" "xayc" = "xR" ∧
     literalReplaceAll "a.c" "R" "xayc" = "xayc" ∧
     substituteLine "a.c" "R" "xayc" ≠ literalReplaceAll "a.c" "R" "xayc") ∧
    (substituteLine "@PROJECT_ROOT@" "/tmp/$&" "x@PROJECT_ROOT@y" =
       "x/tmp/@PROJECT_ROOT@y" ∧
     literalReplaceAll "@PROJECT_ROOT@" "/tmp/$&" "x@PROJECT_ROOT@y" = "x/tmp/$&y" ∧
     substituteLine "@PROJECT_ROOT@" "/tmp/$&" "x@PROJECT_ROOT@y" ≠
       literalReplaceAll "@PROJECT_ROOT@" "/tmp/$&" "x@PROJECT_ROOT@y") := by
  refine ⟨⟨rfl, rfl, ?_⟩, rfl, rfl, ?_⟩
  · decide
  · decide

theorem pmatches_compile_eq_lit (l : List Char) (hnd : '.' ∉ l) (s : List Char) :
    pmatches (l.map (fun c => if c = '.' then PChar.dot else PChar.lit c)) s =
    litMatches l s := by
  induction l generalizing s with
  | nil => simp [pmatches, litMatches]
  | cons c cs ih =>
    have hc : ¬(c = '.') := fun h => hnd (by simp [h])
    have ih' := ih (fun h => hnd (List.mem_cons_of_mem _ h))
    cases s with
    | nil => simp [pmatches, litMatches, hc]
    | cons d ds =>
      simp only [List.map_cons, if_neg hc, pmatches, litMatches, pcharMatches]
      by_cases hcd : c = d
      · simp [hcd, ih']
      · simp [hcd]

theorem expandRep_no_dollar (matched before after rep : List Char)
    (h : '$' ∉ rep) : expandRep matched before after rep = rep := by
  induction rep with
  | nil => rfl
  | cons c tl ih =>
    have hc : ¬(c = '$') := fun hq => h (by simp [hq])
    have ih' := ih (fun hq => h (List.mem_cons_of_mem _ hq))
    rw [expandRep.eq_def]
    simp [hc, ih']

/-- C5 (amended): the placeholder token is compiled as a JavaScript regular
expression with the global flag, so metacharacters in it are interpreted,
not matched literally, and the replacement path goes through
`String.prototype.replace`'s `$`-substitution; when every character of the
token is an ordinary (non-metacharacter) character — in particular for the
default `"@PROJECT_ROOT@"` — and the canonicalized project-root path
contains no `$`, the substitution the driver applies before JSON parsing
coincides with global literal substitution of the token. -/
theorem claim_C5_literal_when_safe (placeholder testDir line : String)
    (hsafe : ∀ c ∈ placeholder.data, regexSafeChar c = true)
    (hrep : '$' ∉ testDir.data) :
    substituteLine placeholder testDir line =
      literalReplaceAll placeholder testDir line := by
  have hnd : '.' ∉ placeholder.data := by
    intro hmem
    have h := hsafe '.' hmem
    simp [regexSafeChar] at h
  have hm : pmatches (compilePat placeholder) = litMatches placeholder.data := by
    funext s
    exact pmatches_compile_eq_lit placeholder.data hnd s
  have he : (fun matched before after : List Char =>
        expandRep matched before after testDir.data) =
      (fun _ _ _ : List Char => testDir.data) := by
    funext matched before after
    exact expandRep_no_dollar matched before after testDir.data hrep
  simp only [substituteLine, regexReplaceGlobal, literalReplaceAll]
  rw [hm, he]

/-- Witness for the amended C5 at the default placeholder and a `$`-free
path. -/
theorem claim_C5_literal_when_safe_witness :
    substituteLine "@PROJECT_ROOT@" "/p" "open \"@PROJECT_ROOT@/a.ts\"" =
      literalReplaceAll "@PROJECT_ROOT@" "/p" "open \"@PROJECT_ROOT@/a.ts\"" :=
  claim_C5_literal_when_safe "@PROJECT_ROOT@" "/p" "open \"@PROJECT_ROOT@/a.ts\""
    (by decide) (by decide)

theorem augmentRequest_error (fsOracle : String → Option String)
    (fileKey contentKey : String) (request : JValue)
    (hlacks : lacksOpenFilesSeq request) :
    augmentRequest fsOracle fileKey contentKey request = Except.error () := by
  rcases hlacks with h | ⟨a, ha, h2⟩
  · simp [augmentRequest, h]
  · rcases h2 with hof | ⟨o, ho, hna, hns⟩
    · simp [augmentRequest, ha, hof]
    · cases o with
      | none => simp [augmentRequest, ha, ho]
      | some v =>
        cases v with
        | null => simp [augmentRequest, ha, ho]
        | bool b => simp [augmentRequest, ha, ho]
        | num n => simp [augmentRequest, ha, ho]
        | str s => exact absurd rfl (hns s)
        | arr xs => exact absurd rfl (hna xs)
        | obj fields => simp [augmentRequest, ha, ho]

theorem prepareRequest_error_of_lacks (fsOracle : String → Option String)
    (testDir placeholder line : String) (request : JValue) (cv : Option JValue)
    (hparse : jsonParse (substituteLine placeholder testDir line) = some request)
    (hcv : getProp (some request) "command" = Except.ok cv)
    (hcmd : isStrictEqStr cv "updateOpen" = true ∨
      isStrictEqStr cv "applyChangedToOpenFiles" = true)
    (hlacks : lacksOpenFilesSeq request) :
    prepareRequest fsOracle testDir placeholder line = Except.error () := by
  rcases hcmd with hup | hap
  · have haug := augmentRequest_error fsOracle "file" "fileContent" request hlacks
    simp [prepareRequest, hparse, hcv, hup, haug]
  · have haug := augmentRequest_error fsOracle "fileName" "content" request hlacks
    cases hup : isStrictEqStr cv "updateOpen" with
    | true =>
      -- `cv` cannot be strictly equal to two different string literals
      cases cv with
      | none => simp [isStrictEqStr] at hup
      | some v =>
        cases v with
        | str s =>
          simp only [isStrictEqStr, decide_eq_true_eq] at hup hap
          subst hup
          exact absurd hap (by decide)
        | null => simp [isStrictEqStr] at hup
        | bool b => simp [isStrictEqStr] at hup
        | num n => simp [isStrictEqStr] at hup
        | arr xs => simp [isStrictEqStr] at hup
        | obj fields => simp [isStrictEqStr] at hup
    | false =>
      simp [prepareRequest, hparse, hcv, hup, hap, haug]

/-- C9: For every well-formed JSON trace line whose command is `updateOpen`
or `applyChangedToOpenFiles` but which lacks an `arguments` object or an
`arguments.openFiles` sequence, record preparation throws and the line is
handled through exactly the same bad-input path as a JSON parse failure: the
raw line is logged, unattended mode exits with status 2, interactive mode
skips the line (no request record is produced) and continues; the driver
itself never crashes — the handler's outcome is always one of these two
defined results.  (Stated for non-first lines; a first line reaches the very
same code path once it passes the header check.) -/
theorem claim_C9_missing_open_files (u : Bool) (fsOracle : String → Option String)
    (testDir : String) (st : ParserState) (line : String) (rest : List String)
    (request : JValue) (cv : Option JValue)
    (hfl : st.firstLine = false)
    (hnb : isBlank line = false)
    (hparse : jsonParse (substituteLine st.rootDirPlaceholder testDir line) = some request)
    (hcv : getProp (some request) "command" = Except.ok cv)
    (hcmd : isStrictEqStr cv "updateOpen" = true ∨
      isStrictEqStr cv "applyChangedToOpenFiles" = true)
    (hlacks : lacksOpenFilesSeq request) :
    prepareRequest fsOracle testDir st.rootDirPlaceholder line = Except.error () ∧
    (u = true →
      processLines u fsOracle testDir st (line :: rest) =
        ParseResult.fatalExit2 { st with badLogs := st.badLogs ++ [line] }) ∧
    (u = false →
      processLine u fsOracle testDir st line =
        ParseResult.running { st with badLogs := st.badLogs ++ [line], firstLine := false } ∧
      processLines u fsOracle testDir st (line :: rest) =
        processLines u fsOracle testDir
          { st with badLogs := st.badLogs ++ [line], firstLine := false } rest) := by
  have hprep := prepareRequest_error_of_lacks fsOracle testDir st.rootDirPlaceholder line
    request cv hparse hcv hcmd hlacks
  have hbad : processLineCore u fsOracle testDir st line = Except.error () := by
    simp [processLineCore, hnb, hfl, processRequestLine, hprep]
  refine ⟨hprep, ?_, ?_⟩
  · intro hu
    subst hu
    simp [processLines, processLine, hbad]
  · intro hu
    subst hu
    constructor
    · simp [processLine, hbad]
    · simp [processLines, processLine, hbad]

/-- Witness for C9: an `updateOpen` request with no `arguments` at all. -/
theorem claim_C9_missing_open_files_witness :
    prepareRequest (fun _ => none) "/r" "@PROJECT_ROOT@"
      "\x7b\"seq\":1,\"command\":\"updateOpen\"\x7d" = Except.error () ∧
    processLines true (fun _ => none) "/r"
      ⟨"@PROJECT_ROOT@", defaultServerArgs, false, false, [], []⟩
      ["\x7b\"seq\":1,\"command\":\"updateOpen\"\x7d"] =
      ParseResult.fatalExit2
        ⟨"@PROJECT_ROOT@", defaultServerArgs, false, false, [],
         ["\x7b\"seq\":1,\"command\":\"updateOpen\"\x7d"]⟩ := by
  have h := claim_C9_missing_open_files true (fun _ => none) "/r"
    ⟨"@PROJECT_ROOT@", defaultServerArgs, false, false, [], []⟩
    "\x7b\"seq\":1,\"command\":\"updateOpen\"\x7d" []
    (JValue.obj [("seq", JValue.num 1), ("command", JValue.str "updateOpen")])
    (some (JValue.str "updateOpen"))
    rfl rfl rfl rfl (Or.inl rfl)
    (Or.inr ⟨none, rfl, Or.inl rfl⟩)
  exact ⟨h.1, h.2.1 rfl⟩

/-- C10: A JSON object line lacking a `command` field that is not the first
line processed is not treated as configuration: it is prepared like any
request line (substitution, then parse), pushed into the request sequence
(in both modes — a missing command is not an exit) with the placeholder and
server arguments untouched, and the main loop later sends it to the Process
Channel like any other request. -/
theorem claim_C10_late_headerlike_line (u : Bool) (fsOracle : String → Option String)
    (testDir : String) (st : ParserState) (line : String)
    (fields : List (String × JValue))
    (hfl : st.firstLine = false)
    (hnb : isBlank line = false)
    (hprep : prepareRequest fsOracle testDir st.rootDirPlaceholder line =
      Except.ok (JValue.obj fields))
    (hnocmd : lookupField fields "command" = none) :
    processLine u fsOracle testDir st line =
      ParseResult.running
        ⟨st.rootDirPlaceholder, st.serverArgs, false, st.sawExit,
         st.requests ++ [JValue.obj fields], st.badLogs⟩ ∧
    (∀ (resps : Nat → Option Resp) (pre post : List JValue) (s : LoopState),
      (∀ x ∈ pre ++ JValue.obj fields :: post, x ≠ JValue.null) →
      (∀ j, failTrigger (resps j) = false) →
      runLoop u resps (pre ++ JValue.obj fields :: post) 0 s =
        Except.ok (LoopOutcome.completed
          ⟨s.exitRequested || (pre ++ JValue.obj fields :: post).any reqIsExit,
           s.sent ++ (pre ++ JValue.obj fields :: post), s.failReports⟩)) := by
  constructor
  · have hcmd : getProp (some (JValue.obj fields)) "command" = Except.ok none := by
      simp [getProp, hnocmd]
    have h := processLine_request u fsOracle testDir st ⟨line, JValue.obj fields, none⟩
      ⟨hnb, hprep, hcmd⟩ (Or.inl hfl)
    simpa [isStrictEqStr] using h
  · intro resps pre post s hnn hb
    exact runLoop_completed u resps (pre ++ JValue.obj fields :: post) 0 s hnn
      (fun j _ => hb (0 + j))

/-- Witness for C10: a non-first object line with no `command`. -/
theorem claim_C10_late_headerlike_line_witness :
    processLine false (fun _ => none) "/r"
      ⟨"@PROJECT_ROOT@", defaultServerArgs, false, false, [], []⟩
      "\x7b\"kind\":1\x7d" =
      ParseResult.running
        ⟨"@PROJECT_ROOT@", defaultServerArgs, false, false,
         [JValue.obj [("kind", JValue.num 1)]], []⟩ ∧
    runLoop false (fun _ => none) [JValue.obj [("kind", JValue.num 1)]] 0 ⟨false, [], []⟩ =
      Except.ok (LoopOutcome.completed
        ⟨false, [JValue.obj [("kind", JValue.num 1)]], []⟩) := by
  have h := claim_C10_late_headerlike_line false (fun _ => none) "/r"
    ⟨"@PROJECT_ROOT@", defaultServerArgs, false, false, [], []⟩
    "\x7b\"kind\":1\x7d" [("kind", JValue.num 1)] rfl rfl rfl rfl
  refine ⟨h.1, ?_⟩
  have h2 := h.2 (fun _ => none) [] [] ⟨false, [], []⟩
    (by intro x hx; simp at hx; subst hx; simp)
    (fun j => rfl)
  simpa [reqIsExit, getProp, lookupField, isStrictEqStr] using h2

/-- C2: The unsuccessful-response failure path is taken exactly when a
correlated response exists, its `success` is false, and its `message` is not
the exact string `"No content available."` (first conjunct); that sentinel
response never takes the path (second conjunct).  When taken in unattended
mode the driver records the full response as the printed line, attempts the
graceful-then-forced shutdown — whose own outcome `fsr` is swallowed, the
result being the same for every `fsr` — exits with status 5, and sends no
request beyond the offending one (third conjunct).  In interactive mode it
reports the request/response pair and continues with the remaining records
(fourth conjunct). -/
theorem claim_C2_unsuccessful_response :
    (∀ ro : Option Resp, failTrigger ro = true ↔
      ∃ r, ro = some r ∧ r.success = false ∧ r.message ≠ some noContentMsg) ∧
    failTrigger (some ⟨false, some noContentMsg⟩) = false ∧
    (∀ (resps : Nat → Option Resp) (pre : List JValue) (req : JValue)
       (post : List JValue) (r : Resp) (fsr fek : Option Bool),
      (∀ x ∈ pre, x ≠ JValue.null) → req ≠ JValue.null →
      (∀ j, j < pre.length → failTrigger (resps j) = false) →
      resps pre.length = some r → failTrigger (some r) = true →
      runMain true resps fsr fek (pre ++ req :: post) =
        Except.ok ⟨5, pre ++ [req], [], some r, some ⟨5000, fsr⟩, true⟩) ∧
    (∀ (resps : Nat → Option Resp) (pre : List JValue) (req : JValue)
       (post : List JValue) (r : Resp) (fsr fek : Option Bool),
      (∀ x ∈ pre ++ req :: post, x ≠ JValue.null) →
      (∀ j, j ≠ pre.length → failTrigger (resps j) = false) →
      resps pre.length = some r → failTrigger (some r) = true →
      runMain false resps fsr fek (pre ++ req :: post) =
        Except.ok ⟨0, pre ++ req :: post, [(req, r)], none, none,
          (pre ++ req :: post).any reqIsExit⟩) := by
  refine ⟨?_, rfl, ?_, ?_⟩
  · intro ro
    cases ro with
    | none => simp [failTrigger]
    | some r =>
      simp [failTrigger, Bool.and_eq_true, Bool.not_eq_true', beq_eq_false_iff_ne]
  · intro resps pre req post r fsr fek hnn hreq hb hresp htrig
    have hloop := runLoop_fatal resps pre req post 0 ⟨false, [], []⟩ r hnn hreq
      (fun j hj => by simpa using hb j hj) (by simpa using hresp) htrig
    simp [runMain, hloop, exitOrKillTimeoutMs]
  · intro resps pre req post r fsr fek hnn hb hresp htrig
    have hloop := runLoop_report resps pre req post 0 ⟨false, [], []⟩ r hnn
      (fun j hj => by simpa using hb j hj) (by simpa using hresp) htrig
    simp [runMain, hloop]

/-- Witness for C2: a concrete unattended run failing at the second request
(for two different swallowed shutdown outcomes), and a concrete interactive
run reporting and continuing. -/
theorem claim_C2_unsuccessful_response_witness :
    failTrigger (some ⟨false, some "No content available."⟩) = false ∧
    (∀ fsr : Option Bool,
      runMain true
        (fun i => if i = 1 then some ⟨false, some "oops"⟩ else some ⟨true, none⟩)
        fsr (some true)
        [JValue.obj [("command", JValue.str "a")],
         JValue.obj [("command", JValue.str "b")],
         JValue.obj [("command", JValue.str "c")]] =
      Except.ok ⟨5,
        [JValue.obj [("command", JValue.str "a")], JValue.obj [("command", JValue.str "b")]],
        [], some ⟨false, some "oops"⟩, some ⟨5000, fsr⟩, true⟩) ∧
    runMain false
      (fun i => if i = 1 then some ⟨false, some "oops"⟩ else some ⟨true, none⟩)
      none (some true)
      [JValue.obj [("command", JValue.str "a")],
       JValue.obj [("command", JValue.str "b")],
       JValue.obj [("command", JValue.str "c")]] =
      Except.ok ⟨0,
        [JValue.obj [("command", JValue.str "a")], JValue.obj [("command", JValue.str "b")],
         JValue.obj [("command", JValue.str "c")]],
        [(JValue.obj [("command", JValue.str "b")], ⟨false, some "oops"⟩)],
        none, none, false⟩ := by
  have h := claim_C2_unsuccessful_response
  refine ⟨h.2.1, ?_, ?_⟩
  · intro fsr
    have h3 := h.2.2.1
      (fun i => if i = 1 then some ⟨false, some "oops"⟩ else some ⟨true, none⟩)
      [JValue.obj [("command", JValue.str "a")]]
      (JValue.obj [("command", JValue.str "b")])
      [JValue.obj [("command", JValue.str "c")]]
      ⟨false, some "oops"⟩ fsr (some true)
      (by intro x hx; simp at hx; subst hx; simp)
      (by simp)
      (by intro j hj
          have hj0 : j = 0 := by simpa using hj
          subst hj0
          rfl)
      rfl rfl
    simpa using h3
  · have h4 := h.2.2.2
      (fun i => if i = 1 then some ⟨false, some "oops"⟩ else some ⟨true, none⟩)
      [JValue.obj [("command", JValue.str "a")]]
      (JValue.obj [("command", JValue.str "b")])
      [JValue.obj [("command", JValue.str "c")]]
      ⟨false, some "oops"⟩ none (some true)
      (by intro x hx
          simp at hx
          rcases hx with hx | hx | hx <;> (subst hx; simp))
      (by intro j hj
          simp only [List.length_cons, List.length_nil] at hj
          match j, hj with
          | 0, _ => rfl
          | (n + 2), _ => rfl
          | 1, hj => exact absurd rfl hj)
      rfl rfl
    simpa [reqIsExit, getProp, lookupField, isStrictEqStr] using h4

theorem processTrace_good (u : Bool) (fsOracle : String → Option String)
    (testDir : String) (t0 : TraceLine) (ts : List TraceLine)
    (hg : ∀ t ∈ t0 :: ts, GoodLine fsOracle testDir defaultPlaceholder t)
    (hh : HeaderBypass t0) :
    processTrace u fsOracle testDir ((t0 :: ts).map TraceLine.raw) =
      ParseResult.running
        ⟨defaultPlaceholder, defaultServerArgs, false,
         (t0 :: ts).any (fun t => isStrictEqStr t.cmd "exit"),
         pushedRequests u (t0 :: ts), []⟩ := by
  have hstep := processLine_request u fsOracle testDir initState t0
    (hg t0 (List.mem_cons_self _ _)) (Or.inr hh)
  simp only [List.map_cons, processTrace, processLines, hstep]
  rw [processLines_good u fsOracle testDir ts _ rfl
    (fun t ht => hg t (List.mem_cons_of_mem _ ht))]
  cases hexu : !(isStrictEqStr t0.cmd "exit") || !u with
  | true =>
    simp [initState, defaultPlaceholder, hexu, pushedRequests, List.filter_cons,
      List.any_cons]
  | false =>
    simp [initState, defaultPlaceholder, hexu, pushedRequests, List.filter_cons,
      List.any_cons]

theorem pushedRequests_interactive (ts : List TraceLine) :
    pushedRequests false ts = ts.map TraceLine.prepared := by
  simp [pushedRequests]

theorem pushedRequests_unattended (body : List TraceLine) (tex : TraceLine)
    (hbody : ∀ t ∈ body, isStrictEqStr t.cmd "exit" = false)
    (hexit : isStrictEqStr tex.cmd "exit" = true) :
    pushedRequests true (body ++ [tex]) = body.map TraceLine.prepared := by
  induction body with
  | nil => simp [pushedRequests, List.filter_cons, hexit]
  | cons b bs ih =>
    have hb := hbody b (List.mem_cons_self _ _)
    have ih' := ih (fun t ht => hbody t (List.mem_cons_of_mem _ ht))
    simp only [List.cons_append, pushedRequests, List.filter_cons, Bool.not_true] at ih' ⊢
    rw [hb]
    simp only [Bool.not_false, Bool.or_false] at ih' ⊢
    simp only [if_true, List.map_cons, ih']

theorem prepared_ne_null {fsOracle : String → Option String} {testDir placeholder : String}
    (ts : List TraceLine) (hg : ∀ t ∈ ts, GoodLine fsOracle testDir placeholder t) :
    ∀ x ∈ ts.map TraceLine.prepared, x ≠ JValue.null := by
  intro x hx
  rw [List.mem_map] at hx
  obtain ⟨t, ht, rfl⟩ := hx
  exact ne_null_of_getProp_ok (hg t ht).2.2

theorem any_reqIsExit_map {fsOracle : String → Option String} {testDir placeholder : String}
    (ts : List TraceLine) (hg : ∀ t ∈ ts, GoodLine fsOracle testDir placeholder t) :
    (ts.map TraceLine.prepared).any reqIsExit =
      ts.any (fun t => isStrictEqStr t.cmd "exit") := by
  induction ts with
  | nil => rfl
  | cons t ts' ih =>
    simp only [List.map_cons, List.any_cons]
    rw [reqIsExit_eq (hg t (List.mem_cons_self _ _)).2.2,
      ih (fun x hx => hg x (List.mem_cons_of_mem _ hx))]

/-- C1: For every trace consisting only of well-formed request lines with an
explicit trailing exit request (and lifecycle oracles that never trigger an
error path), the sequence of requests sent to the Process Channel is exactly
the prepared trace requests, unchanged in count and order, in both modes —
except that in unattended mode the exit record is removed from the emitted
and sent sequence, and shutdown is performed via the explicit exit-or-kill
protocol (timeout 5000, exit 0 or 6) instead.  The trace is given as
`body ++ [tex]` where only `tex` carries command `"exit"`; `hh` is the
header-check fall-through for whichever line comes first. -/
theorem claim_C1_round_trip (fsOracle : String → Option String) (testDir : String)
    (resps : Nat → Option Resp) (fsr : Option Bool) (clean : Bool)
    (body : List TraceLine) (tex : TraceLine)
    (hg : ∀ t ∈ body ++ [tex], GoodLine fsOracle testDir defaultPlaceholder t)
    (hh : ∀ t, (body ++ [tex]).head? = some t → HeaderBypass t)
    (hexit : isStrictEqStr tex.cmd "exit" = true)
    (hbody : ∀ t ∈ body, isStrictEqStr t.cmd "exit" = false)
    (hbenign : ∀ j, failTrigger (resps j) = false) :
    (parseRequests false fsOracle testDir ((body ++ [tex]).map TraceLine.raw) =
       ParseResult.running ⟨defaultPlaceholder, defaultServerArgs, false, true,
         (body ++ [tex]).map TraceLine.prepared, []⟩ ∧
     runMain false resps fsr (some clean) ((body ++ [tex]).map TraceLine.prepared) =
       Except.ok ⟨0, (body ++ [tex]).map TraceLine.prepared, [], none, none, true⟩) ∧
    (parseRequests true fsOracle testDir ((body ++ [tex]).map TraceLine.raw) =
       ParseResult.running ⟨defaultPlaceholder, defaultServerArgs, false, true,
         body.map TraceLine.prepared, []⟩ ∧
     runMain true resps fsr (some clean) (body.map TraceLine.prepared) =
       Except.ok ⟨if clean then 0 else 6, body.map TraceLine.prepared, [], none,
         some ⟨5000, some clean⟩, true⟩) := by
  have hany : (body ++ [tex]).any (fun t => isStrictEqStr t.cmd "exit") = true := by
    simp [List.any_append, List.any_cons, hexit]
  have htrace : ∀ u : Bool,
      processTrace u fsOracle testDir ((body ++ [tex]).map TraceLine.raw) =
        ParseResult.running ⟨defaultPlaceholder, defaultServerArgs, false, true,
          pushedRequests u (body ++ [tex]), []⟩ := by
    intro u
    cases body with
    | nil =>
      have h := processTrace_good u fsOracle testDir tex [] (by simpa using hg)
        (hh tex rfl)
      simp only [List.nil_append] at hany ⊢
      rw [h, hany]
    | cons b bs =>
      have h := processTrace_good u fsOracle testDir b (bs ++ [tex])
        (by simpa using hg) (hh b rfl)
      simp only [List.cons_append] at hany ⊢
      rw [h, hany]
  have hgbody : ∀ t ∈ body, GoodLine fsOracle testDir defaultPlaceholder t :=
    fun t ht => hg t (List.mem_append_left _ ht)
  have hanyI : ((body ++ [tex]).map TraceLine.prepared).any reqIsExit = true := by
    rw [any_reqIsExit_map (body ++ [tex]) hg, hany]
  refine ⟨⟨?_, ?_⟩, ?_, ?_⟩
  · rw [parseRequests, htrace false]
    simp [pushedRequests_interactive]
  · have hloop := runLoop_completed false resps ((body ++ [tex]).map TraceLine.prepared)
      0 ⟨false, [], []⟩ (prepared_ne_null (body ++ [tex]) hg)
      (fun j _ => hbenign (0 + j))
    simp only [List.map_append, List.map_cons, List.map_nil] at hloop hanyI
    simp [runMain, hloop, hanyI]
  · rw [parseRequests, htrace true]
    simp [pushedRequests_unattended body tex hbody hexit]
  · have hloop := runLoop_completed true resps (body.map TraceLine.prepared)
      0 ⟨false, [], []⟩ (prepared_ne_null body hgbody)
      (fun j _ => hbenign (0 + j))
    simp [runMain, hloop, exitOrKillTimeoutMs]

/-- Witness for C1: a two-line trace (one ordinary request, one trailing
exit), replayed in both modes with benign responses. -/
theorem claim_C1_round_trip_witness :
    (parseRequests false (fun _ => none) "/r"
        ["\x7b\"seq\":1,\"command\":\"configure\"\x7d",
         "\x7b\"seq\":2,\"command\":\"exit\"\x7d"] =
      ParseResult.running ⟨defaultPlaceholder, defaultServerArgs, false, true,
        [JValue.obj [("seq", JValue.num 1), ("command", JValue.str "configure")],
         JValue.obj [("seq", JValue.num 2), ("command", JValue.str "exit")]], []⟩) ∧
    (runMain false (fun _ => none) none (some true)
        [JValue.obj [("seq", JValue.num 1), ("command", JValue.str "configure")],
         JValue.obj [("seq", JValue.num 2), ("command", JValue.str "exit")]] =
      Except.ok ⟨0,
        [JValue.obj [("seq", JValue.num 1), ("command", JValue.str "configure")],
         JValue.obj [("seq", JValue.num 2), ("command", JValue.str "exit")]],
        [], none, none, true⟩) ∧
    (parseRequests true (fun _ => none) "/r"
        ["\x7b\"seq\":1,\"command\":\"configure\"\x7d",
         "\x7b\"seq\":2,\"command\":\"exit\"\x7d"] =
      ParseResult.running ⟨defaultPlaceholder, defaultServerArgs, false, true,
        [JValue.obj [("seq", JValue.num 1), ("command", JValue.str "configure")]], []⟩) ∧
    (runMain true (fun _ => none) none (some true)
        [JValue.obj [("seq", JValue.num 1), ("command", JValue.str "configure")]] =
      Except.ok ⟨0,
        [JValue.obj [("seq", JValue.num 1), ("command", JValue.str "configure")]],
        [], none, some ⟨5000, some true⟩, true⟩) := by
  have h := claim_C1_round_trip (fun _ => none) "/r" (fun _ => none) none true
    [⟨"\x7b\"seq\":1,\"command\":\"configure\"\x7d",
      JValue.obj [("seq", JValue.num 1), ("command", JValue.str "configure")],
      some (JValue.str "configure")⟩]
    ⟨"\x7b\"seq\":2,\"command\":\"exit\"\x7d",
      JValue.obj [("seq", JValue.num 2), ("command", JValue.str "exit")],
      some (JValue.str "exit")⟩
    (by
      intro t ht
      simp only [List.cons_append, List.nil_append, List.mem_cons,
        List.not_mem_nil, or_false] at ht
      rcases ht with h1 | h1 <;> (subst h1; exact ⟨rfl, rfl, rfl⟩))
    (by
      intro t ht
      simp only [List.cons_append, List.head?_cons, Option.some.injEq] at ht
      subst ht
      exact ⟨JValue.obj [("seq", JValue.num 1), ("command", JValue.str "configure")],
        some (JValue.str "configure"), rfl, rfl, rfl⟩)
    rfl
    (by
      intro t ht
      simp only [List.mem_singleton] at ht
      subst ht
      rfl)
    (fun j => rfl)
  exact ⟨h.1.1, by simpa using h.1.2, h.2.1, by simpa using h.2.2⟩

end Replay

section SubstSmoke

example : Replay.regexReplaceGlobal "@PROJECT_ROOT@" "/tmp/p"
    "open @PROJECT_ROOT@/a.ts and @PROJECT_ROOT@/b.ts" =
    "open /tmp/p/a.ts and /tmp/p/b.ts" := by rfl

example : Replay.regexReplaceGlobal "a.c" "R" "xayc" = "xR" := by rfl

example : Replay.literalReplaceAll "a.c" "R" "xayc" = "xayc" := by rfl

-- Replacement-string substitution, as String.prototype.replace does it:
-- "abc".replace(/b/g, "[$\x60|$&|$\x27|$$x]") === "a[a|b|c|$x]c".
example : Replay.regexReplaceGlobal "b" "[$\x60|$&|$\x27|$$x]" "abc" =
    "a[a|b|c|$x]c" := by rfl

-- A dollar sequence that is not special (no capture groups) stays literal.
example : Replay.regexReplaceGlobal "b" "$1z" "abc" = "a$1zc" := by rfl

end SubstSmoke

section ParserStateSmoke

-- Header on the true first line is consumed.
example : Replay.processTrace false (fun _ => none) "ROOT"
    ["\x7b\"rootDirPlaceholder\":\"XX\"\x7d"] =
    Replay.ParseResult.running
      ⟨"XX", Replay.defaultServerArgs, false, false, [], []⟩ := by rfl

-- A preceding blank line defeats header detection (the finally clause runs
-- on the blank-line return and clears firstLine).
example : Replay.processTrace false (fun _ => none) "ROOT"
    ["", "\x7b\"rootDirPlaceholder\":\"XX\"\x7d"] =
    Replay.ParseResult.running
      ⟨"@PROJECT_ROOT@", Replay.defaultServerArgs, false, false,
       [Replay.JValue.obj [("rootDirPlaceholder", Replay.JValue.str "XX")]], []⟩ := by rfl

-- Placeholder substitution happens on request lines; exit is tracked and,
-- interactive, no sentinel is appended when an exit was seen.
example : Replay.parseRequests false (fun _ => none) "/r"
    ["\x7b\"seq\":1,\"command\":\"open\",\"arguments\":\x7b\"file\":\"@PROJECT_ROOT@/a.ts\"\x7d\x7d",
     "\x7b\"seq\":2,\"command\":\"exit\"\x7d"] =
    Replay.ParseResult.running
      ⟨"@PROJECT_ROOT@", Replay.defaultServerArgs, false, true,
       [Replay.JValue.obj [("seq", Replay.JValue.num 1), ("command", Replay.JValue.str "open"),
          ("arguments", Replay.JValue.obj [("file", Replay.JValue.str "/r/a.ts")])],
        Replay.JValue.obj [("seq", Replay.JValue.num 2), ("command", Replay.JValue.str "exit")]],
       []⟩ := by rfl

-- Unattended: the exit record is dropped from the emitted sequence but
-- remembered; no sentinel either.
example : Replay.parseRequests true (fun _ => none) "/r"
    ["\x7b\"seq\":2,\"command\":\"exit\"\x7d"] =
    Replay.ParseResult.running
      ⟨"@PROJECT_ROOT@", Replay.defaultServerArgs, false, true, [], []⟩ := by rfl

-- Interactive with no exit anywhere: the sentinel is appended.
example : Replay.parseRequests false (fun _ => none) "/r"
    ["\x7b\"seq\":1,\"command\":\"reload\"\x7d"] =
    Replay.ParseResult.running
      ⟨"@PROJECT_ROOT@", Replay.defaultServerArgs, false, false,
       [Replay.JValue.obj [("seq", Replay.JValue.num 1), ("command", Replay.JValue.str "reload")],
        Replay.exitSentinel], []⟩ := by rfl

-- updateOpen augmentation reads the file oracle and stores fileContent.
example : Replay.parseRequests false
    (fun p => if p = "/r/a.ts" then some "let x = 1" else none) "/r"
    ["\x7b\"seq\":1,\"command\":\"updateOpen\",\"arguments\":\x7b\"openFiles\":[\x7b\"file\":\"@PROJECT_ROOT@/a.ts\"\x7d]\x7d\x7d",
     "\x7b\"seq\":2,\"command\":\"exit\"\x7d"] =
    Replay.ParseResult.running
      ⟨"@PROJECT_ROOT@", Replay.defaultServerArgs, false, true,
       [Replay.JValue.obj [("seq", Replay.JValue.num 1),
          ("command", Replay.JValue.str "updateOpen"),
          ("arguments", Replay.JValue.obj [("openFiles", Replay.JValue.arr
            [Replay.JValue.obj [("file", Replay.JValue.str "/r/a.ts"),
               ("fileContent", Replay.JValue.str "let x = 1")]])])],
        Replay.JValue.obj [("seq", Replay.JValue.num 2), ("command", Replay.JValue.str "exit")]],
       []⟩ := by rfl

-- A bad line: reported; unattended exits 2, interactive skips and goes on.
example : Replay.processTrace true (fun _ => none) "/r" ["\x7b oops", "\x7b\x7d"] =
    Replay.ParseResult.fatalExit2
      ⟨"@PROJECT_ROOT@", Replay.defaultServerArgs, true, false, [], ["\x7b oops"]⟩ := by rfl

example : Replay.processTrace false (fun _ => none) "/r" ["\x7b oops", "5"] =
    Replay.ParseResult.running
      ⟨"@PROJECT_ROOT@", Replay.defaultServerArgs, false, false,
       [Replay.JValue.num 5], ["\x7b oops"]⟩ := by rfl

-- updateOpen lacking arguments.openFiles goes down the same bad-input path.
example : Replay.processTrace true (fun _ => none) "/r"
    ["\x7b\"seq\":1,\"command\":\"updateOpen\"\x7d"] =
    Replay.ParseResult.fatalExit2
      ⟨"@PROJECT_ROOT@", Replay.defaultServerArgs, true, false, [],
       ["\x7b\"seq\":1,\"command\":\"updateOpen\"\x7d"]⟩ := by rfl

end ParserStateSmoke

section LoopSmoke

-- Unattended fatal response at the second request: exit 5, both requests
-- sent, nothing after, response printed, shutdown attempted (outcome
-- swallowed: here it threw).
example : Replay.runMain true
    (fun i => if i = 1 then some ⟨false, some "oops"⟩ else some ⟨true, none⟩)
    none (some true)
    [Replay.JValue.obj [("seq", Replay.JValue.num 1), ("command", Replay.JValue.str "a")],
     Replay.JValue.obj [("seq", Replay.JValue.num 2), ("command", Replay.JValue.str "b")],
     Replay.JValue.obj [("seq", Replay.JValue.num 3), ("command", Replay.JValue.str "c")]] =
    Except.ok ⟨5,
      [Replay.JValue.obj [("seq", Replay.JValue.num 1), ("command", Replay.JValue.str "a")],
       Replay.JValue.obj [("seq", Replay.JValue.num 2), ("command", Replay.JValue.str "b")]],
      [], some ⟨false, some "oops"⟩, some ⟨5000, none⟩, true⟩ := by rfl

-- Interactive: same responses, the failure is reported and replay goes on.
example : Replay.runMain false
    (fun i => if i = 1 then some ⟨false, some "oops"⟩ else some ⟨true, none⟩)
    none (some true)
    [Replay.JValue.obj [("command", Replay.JValue.str "a")],
     Replay.JValue.obj [("command", Replay.JValue.str "b")],
     Replay.JValue.obj [("command", Replay.JValue.str "exit")]] =
    Except.ok ⟨0,
      [Replay.JValue.obj [("command", Replay.JValue.str "a")],
       Replay.JValue.obj [("command", Replay.JValue.str "b")],
       Replay.JValue.obj [("command", Replay.JValue.str "exit")]],
      [(Replay.JValue.obj [("command", Replay.JValue.str "b")], ⟨false, some "oops"⟩)],
      none, none, true⟩ := by rfl

-- The "No content available." soft miss never triggers the failure path.
example : Replay.failTrigger (some ⟨false, some "No content available."⟩) = false := by rfl

-- Unattended clean completion vs forced kill.
example : Replay.runMain true (fun _ => none) none (some false)
    [Replay.JValue.obj [("command", Replay.JValue.str "a")]] =
    Except.ok ⟨6, [Replay.JValue.obj [("command", Replay.JValue.str "a")]],
      [], none, some ⟨5000, some false⟩, true⟩ := by rfl

-- Close handler: requested clean close logs "Shut down" (interactive) /
-- nothing (unattended); unrequested close is an anomaly, unattended exit 3.
example : Replay.closeHandler false true none none = (some "Shut down", none) := by rfl
example : Replay.closeHandler true true none none = (none, none) := by rfl
example : Replay.closeHandler true false (some 0) none =
    (some "Exited unexpectedly", some 3) := by rfl
example : Replay.closeHandler true true (some 2) none =
    (some "Shut down with code 2", none) := by rfl
example : Replay.closeHandler false false none (some "SIGKILL") =
    (some "Exited unexpectedly with signal SIGKILL", none) := by rfl

end LoopSmoke

section ParserSmoke

example : Replay.jsonParse "null" = some Replay.JValue.null := by rfl

example : Replay.jsonParse " \x7b\"seq\": 12, \"command\": \"exit\"\x7d " =
    some (Replay.JValue.obj
      [("seq", Replay.JValue.num 12), ("command", Replay.JValue.str "exit")]) := by rfl

example : Replay.jsonParse "[1, -2, \"a\\\"b\", true, [\x7b\x7d]]" =
    some (Replay.JValue.arr
      [Replay.JValue.num 1, Replay.JValue.num (-2), Replay.JValue.str "a\"b",
       Replay.JValue.bool true, Replay.JValue.arr [Replay.JValue.obj []]]) := by rfl

example : Replay.jsonParse "\x7b\"a\":1,\"a\":2\x7d" =
    some (Replay.JValue.obj [("a", Replay.JValue.num 2)]) := by rfl

example : Replay.jsonParse "\x7b oops" = none := by rfl

end ParserSmoke
